import Mathlib

set_option autoImplicit false

/-
Verification of the MetaMetrics analytics provider
(ui/app/contexts/metametrics.new.js).

The file embeds the two behaviours of the provider as pure Lean
functions:

* `trackEvent` : the exposed event tracker.  The JavaScript function
  reads global state (consent flag, user id, network, send count),
  validates its configuration object, decides anonymization, and either
  throws, emits one payload to the analytics SDK, or silently returns.
  The embedding returns `Except String (Option TrackPayload)`:
  an `error` models a thrown `Error`, `ok (some p)` models exactly one
  call to the track method of the SDK with payload `p`, and `ok none`
  models a call that emits nothing.

* `onLocationChange` : the page-tracking effect that runs on every
  navigation.  It returns a `PageResult` holding the page event sent to
  the SDK page method (if any) and the diagnostic message reported via
  the message-capture function (if any).

JavaScript objects are embedded as association lists in literal
insertion order; `jsGet` reads a key with the JavaScript semantics that
a later entry of an object literal overrides an earlier one.  JavaScript
primitive values for the stored user identifier and for caller-supplied
property values are embedded as `JSVal`, with truthiness and the nullish
test made explicit.

External repository code that is not part of the analysed source
(the anonymous-identifier constant, the route-name table) is modelled
from the specification and marked as such; the third-party helpers
(lodash omit, react-router matchPath with exact and strict matching)
are embedded from their documented semantics.
-/

namespace Metametrics

/-- A JavaScript primitive value, as needed for the stored user
identifier and for caller-supplied event property values. -/
inductive JSVal where
  | undef
  | null
  | bool (b : Bool)
  | num (n : Int)
  | str (s : String)
deriving DecidableEq, Repr

/-- JavaScript truthiness of a primitive value. -/
def JSVal.truthy : JSVal → Bool
  | .undef => false
  | .null => false
  | .bool b => b
  | .num n => decide (n ≠ 0)
  | .str s => decide (s ≠ "")

/-- The nullish test of JavaScript (argument of the double-question
operator): true exactly on undefined and null. -/
def JSVal.isNullish : JSVal → Bool
  | .undef => true
  | .null => true
  | _ => false

/-- Truthiness of an optional string field of a configuration object:
an absent field and the empty string are falsy. -/
def strTruthy : Option String → Bool
  | none => false
  | some s => decide (s ≠ "")

/-- Modelled from the spec: the fixed placeholder identifier used when
the user has not consented or when an event is deliberately anonymized
(constant imported from the metametrics utility module, which is not
part of the analysed source). -/
def METAMETRICS_ANONYMOUS_ID : String := "0x0000000000000000"

/-- First-match association-list lookup. -/
def assocLookup {β : Type} (k : String) : List (String × β) → Option β
  | [] => none
  | (a, b) :: t => if a = k then some b else assocLookup k t

/-- Read of key `k` on an embedded JavaScript object: the object is the
association list of its literal entries in order, and a later entry
overrides an earlier one, so the read takes the last match. -/
def jsGet {β : Type} (l : List (String × β)) (k : String) : Option β :=
  assocLookup k l.reverse

/-- Embedding of lodash omit restricted to a flat object: drop every
entry whose key is listed. -/
def omitKeys {β : Type} (l : List (String × β)) (ks : List String) : List (String × β) :=
  l.filter (fun kv => decide (kv.1 ∉ ks))

/-- Prefix test on strings, by their character lists. -/
def strStartsWith (s pre : String) : Bool :=
  pre.data.isPrefixOf s.data

/-- The externally owned global application state read by the provider
through selectors. -/
structure MetaMetricsState where
  network : String
  metaMetricsId : JSVal
  participateInMetaMetrics : Bool
  metaMetricsSendCount : Nat
deriving DecidableEq, Repr

/-- The platform and environment accessors attached as event context. -/
structure AppEnv where
  version : String
  environment : String
  platform : String
  environmentType : String
deriving DecidableEq, Repr

/-- The configuration object accepted by trackEvent.  Absent optional
fields are `none`; the `properties` object is its entry list. -/
structure TrackConfig where
  event : Option String := none
  category : Option String := none
  isOptIn : Option Bool := none
  properties : List (String × JSVal) := []
  excludeMetaMetricsId : Option Bool := none
deriving DecidableEq, Repr

/-- The context object attached to every tracked event. -/
structure TrackContext where
  version : String
  environment : String
  platform : String
  network : String
  environment_type : String
deriving DecidableEq, Repr

/-- The payload handed to the track method of the SDK: the identity
trait name and value, the event name, the properties object and the
context object. -/
structure TrackPayload where
  idTrait : String
  idValue : JSVal
  event : String
  properties : List (String × JSVal)
  context : TrackContext
deriving DecidableEq, Repr

/-- The effective anonymization flag of a call: the caller override
(default false), forced to true for a send or confirm prefixed event
whose incremented send count the external trackability predicate
rejects. -/
def effectiveExclude (sendCountIsTrackable : Nat → Bool)
    (st : MetaMetricsState) (config : TrackConfig) : Bool :=
  let event := config.event.getD ""
  let isSendFlow := strStartsWith event "send" || strStartsWith event "confirm"
  if isSendFlow && !sendCountIsTrackable (st.metaMetricsSendCount + 1) then
    true
  else
    config.excludeMetaMetricsId.getD false

/-- The payload built by trackEvent when it emits.  The properties
object is the literal with the spread of the caller properties stripped
of revenue, currency and value, followed by the category entry and the
exclude_meta_metrics_id entry. -/
def mkTrackPayload (env : AppEnv) (sendCountIsTrackable : Nat → Bool)
    (st : MetaMetricsState) (config : TrackConfig) : TrackPayload :=
  let event := config.event.getD ""
  let category := config.category.getD ""
  let excludeMetaMetricsId := effectiveExclude sendCountIsTrackable st config
  { idTrait := if excludeMetaMetricsId then "anonymousId" else "userId"
    idValue := if excludeMetaMetricsId then JSVal.str METAMETRICS_ANONYMOUS_ID
               else st.metaMetricsId
    event := event
    properties :=
      omitKeys config.properties ["revenue", "currency", "value"]
        ++ [("category", JSVal.str category),
            ("exclude_meta_metrics_id", JSVal.bool excludeMetaMetricsId)]
    context := { version := env.version
                 environment := env.environment
                 platform := env.platform
                 network := st.network
                 environment_type := env.environmentType } }

/-- Embedding of the trackEvent callback.  It throws when the event
name or the category is missing or falsy, then emits exactly one
payload when the user participates in MetaMetrics or the call is part
of the opt-in workflow, and otherwise emits nothing. -/
def trackEvent (env : AppEnv) (sendCountIsTrackable : Nat → Bool)
    (st : MetaMetricsState) (config : TrackConfig) :
    Except String (Option TrackPayload) :=
  if !strTruthy config.event then
    Except.error "MetaMetrics trackEvent function must be provided a payload with an \"event\" key"
  else if !strTruthy config.category then
    Except.error "MetaMetrics events must be provided a category"
  else if st.participateInMetaMetrics || config.isOptIn.getD false then
    Except.ok (some (mkTrackPayload env sendCountIsTrackable st config))
  else
    Except.ok none

/-- Whether a trackEvent outcome called the track method of the SDK. -/
def trackEmits : Except String (Option TrackPayload) → Bool
  | .ok (some _) => true
  | _ => false

/-- The location object of the router: current pathname and hash. -/
structure LocationObj where
  pathname : String
  hash : String
deriving DecidableEq, Repr

/-- Split of a character list at every slash. -/
def splitSegsAux : List Char → List Char → List String
  | [], acc => [String.mk acc.reverse]
  | c :: cs, acc =>
      if c = '/' then String.mk acc.reverse :: splitSegsAux cs []
      else splitSegsAux cs (c :: acc)

/-- The segments of a path: the string split at every slash. -/
def splitSegs (s : String) : List String :=
  splitSegsAux s.data []

/-- Whether a pattern segment is a parameter segment (starts with a
colon). -/
def isParamSeg (s : String) : Bool :=
  match s.data with
  | ':' :: _ => true
  | _ => false

/-- The parameter name of a parameter segment: the segment without its
leading colon. -/
def paramName (s : String) : String :=
  String.mk s.data.tail

/-- Segment-wise match of a route pattern against a concrete path, in
the exact and strict mode of the router: every segment must be
consumed, a parameter segment binds one nonempty concrete segment, and
any other segment must be equal literally. -/
def segMatch : List String → List String → Option (List (String × String))
  | [], [] => some []
  | pseg :: ps, aseg :: rest =>
      if isParamSeg pseg then
        if aseg = "" then none
        else (segMatch ps rest).map (fun binds => (paramName pseg, aseg) :: binds)
      else if pseg = aseg then segMatch ps rest
      else none
  | _, _ => none

/-- Match of one route pattern against a pathname, returning the bound
route parameters on success. -/
def matchesPath (pattern actual : String) : Option (List (String × String)) :=
  segMatch (splitSegs pattern) (splitSegs actual)

/-- The result of a successful route match: the matched pattern and the
bound parameters. -/
structure MatchResult where
  path : String
  params : List (String × String)
deriving DecidableEq, Repr

/-- Embedding of matchPath applied to the list of route patterns with
exact and strict matching: the first pattern of the list that matches
the pathname wins. -/
def matchPathList (pathname : String) : List String → Option MatchResult
  | [] => none
  | p :: ps =>
      match matchesPath p pathname with
      | some params => some { path := p, params := params }
      | none => matchPathList pathname ps

/-- A page event handed to the page method of the SDK: identity trait
name and value, derived page name, and the properties object made of
the matched pattern as url, the location hash, and the route parameters
stripped of account and address. -/
structure PageEvent where
  idTrait : String
  idValue : JSVal
  name : Option String
  url : String
  hash : String
  params : List (String × String)
deriving DecidableEq, Repr

/-- The observable outcome of one run of the page-tracking effect: the
page event emitted to the SDK (if any) and the diagnostic message
reported through the message-capture function (if any). -/
structure PageResult where
  pageEvent : Option PageEvent
  diagnostic : Option String
deriving DecidableEq, Repr

/-- Embedding of the page-tracking effect that runs on every
navigation.  The route-name table is passed as the association list of
the externally owned PATH_NAME_MAP (modelled from the spec: a static
mapping from route pattern to human-readable page name, not part of the
analysed source); its keys in order are the patterns handed to
matchPath. -/
def onLocationChange (pathNameMap : List (String × String))
    (st : MetaMetricsState) (loc : LocationObj) : PageResult :=
  if strStartsWith loc.pathname "/initialize" || st.participateInMetaMetrics then
    let idTrait := if st.metaMetricsId.truthy then "userId" else "anonymousId"
    let idValue := if st.metaMetricsId.isNullish then JSVal.str METAMETRICS_ANONYMOUS_ID
                   else st.metaMetricsId
    match matchPathList loc.pathname (pathNameMap.map Prod.fst) with
    | some m =>
        { pageEvent := some
            { idTrait := idTrait
              idValue := idValue
              name := assocLookup m.path pathNameMap
              url := m.path
              hash := loc.hash
              params := omitKeys m.params ["account", "address"] }
          diagnostic := none }
    | none =>
        if loc.pathname ≠ "/confirm-transaction" then
          { pageEvent := none
            diagnostic := some (loc.pathname ++ " would have issued a page track event to segment, but no route match was found") }
        else
          { pageEvent := none, diagnostic := none }
  else
    { pageEvent := none, diagnostic := none }



/-! Concrete sample inputs used by the witness theorems below. -/

/-- A sample application environment. -/
def envW : AppEnv :=
  { version := "8.0.4", environment := "production", platform := "chrome",
    environmentType := "popup" }

/-- A sample global state of a consenting user with a known id. -/
def stW : MetaMetricsState :=
  { network := "1", metaMetricsId := JSVal.str "0xabc",
    participateInMetaMetrics := true, metaMetricsSendCount := 2 }

/-- A sample route table whose only pattern carries an account route
parameter. -/
def mapW3 : List (String × String) := [("/a/:account", "Asset Page")]

/-- A sample navigation that binds the account route parameter. -/
def locW3 : LocationObj := { pathname := "/a/0xdead", hash := "" }

/-- The page event emitted on the sample navigation of locW3. -/
def peW3 : PageEvent :=
  { idTrait := "userId", idValue := JSVal.str "0xabc", name := some "Asset Page",
    url := "/a/:account", hash := "", params := [] }

/-- A sample configuration with a send prefixed event name. -/
def cfgW4 : TrackConfig := { event := some "send eth", category := some "Transactions" }

/-- A sample configuration carrying revenue, currency and value entries
in its properties. -/
def cfgW5 : TrackConfig :=
  { event := some "Paid", category := some "Checkout",
    properties := [("revenue", JSVal.num 5), ("currency", JSVal.str "usd"),
                   ("value", JSVal.num 2), ("legit", JSVal.str "x")] }

/-- A sample route table with two exact patterns. -/
def mapW6 : List (String × String) :=
  [("/settings", "Settings Page"), ("/unlock", "Unlock Page")]

/-- A sample navigation to the second pattern of mapW6. -/
def locW6 : LocationObj := { pathname := "/unlock", hash := "" }

/-- A sample global state with an absent (undefined) user identifier. -/
def stW7 : MetaMetricsState :=
  { network := "1", metaMetricsId := JSVal.undef,
    participateInMetaMetrics := true, metaMetricsSendCount := 0 }

/-- A one-entry sample route table. -/
def mapW7 : List (String × String) := [("/unlock", "Unlock Page")]

/-- A sample navigation matching the single pattern of mapW7. -/
def locW7 : LocationObj := { pathname := "/unlock", hash := "" }

/-- The page event emitted on the sample navigation of locW7 under the
state stW7: the anonymous placeholder under the anonymousId trait. -/
def peW7 : PageEvent :=
  { idTrait := "anonymousId", idValue := JSVal.str METAMETRICS_ANONYMOUS_ID,
    name := some "Unlock Page", url := "/unlock", hash := "", params := [] }

/-- A one-entry sample route table for the route miss witness. -/
def mapW8 : List (String × String) := [("/unlock", "Unlock Page")]

/-- A sample navigation matching no pattern of mapW8. -/
def locW8 : LocationObj := { pathname := "/nope", hash := "" }

/-- A sample configuration of the opt-in workflow. -/
def cfgW9 : TrackConfig :=
  { event := some "Clicked Browse", category := some "Navigation", isOptIn := some true }

/-- A sample global state of a user who has not consented and has no
stored identifier. -/
def stW9 : MetaMetricsState :=
  { network := "1", metaMetricsId := JSVal.null,
    participateInMetaMetrics := false, metaMetricsSendCount := 0 }

/-- A sample configuration whose caller properties try to preset the
category entry and the exclude_meta_metrics_id entry. -/
def cfgW10 : TrackConfig :=
  { event := some "Clicked", category := some "Navigation",
    properties := [("category", JSVal.str "spoof"),
                   ("exclude_meta_metrics_id", JSVal.bool true)] }

/-! Helper lemmas about association lists, object reads and matching. -/

theorem assocLookup_eq_none {β : Type} (k : String) (l : List (String × β))
    (h : ∀ kv ∈ l, kv.1 ≠ k) : assocLookup k l = none := by
  induction l with
  | nil => rfl
  | cons kv t ih =>
    obtain ⟨a, b⟩ := kv
    simp only [assocLookup]
    rw [if_neg (h (a, b) (List.mem_cons_self _ _))]
    exact ih (fun x hx => h x (List.mem_cons_of_mem _ hx))

theorem mem_omitKeys {β : Type} {l : List (String × β)} {ks : List String}
    {kv : String × β} (h : kv ∈ omitKeys l ks) : kv ∈ l ∧ kv.1 ∉ ks := by
  have := List.mem_filter.mp h
  exact ⟨this.1, by simpa using this.2⟩

theorem jsGet_omitKeys_none {β : Type} (l : List (String × β)) (ks : List String)
    (k : String) (hk : k ∈ ks) : jsGet (omitKeys l ks) k = none := by
  apply assocLookup_eq_none
  intro kv hkv
  rw [List.mem_reverse] at hkv
  intro heq
  exact (mem_omitKeys hkv).2 (heq ▸ hk)

theorem jsGet_snoc {β : Type} (l : List (String × β)) (a k : String) (v : β) :
    jsGet (l ++ [(a, v)]) k = if a = k then some v else jsGet l k := by
  simp [jsGet, List.reverse_append, assocLookup]

theorem assocLookup_append_of_not_mem {β : Type} (k : String)
    (l1 l2 : List (String × β)) (h : ∀ kv ∈ l1, kv.1 ≠ k) :
    assocLookup k (l1 ++ l2) = assocLookup k l2 := by
  induction l1 with
  | nil => rfl
  | cons kv t ih =>
    obtain ⟨a, b⟩ := kv
    simp only [List.cons_append, assocLookup]
    rw [if_neg (h (a, b) (List.mem_cons_self _ _))]
    exact ih (fun x hx => h x (List.mem_cons_of_mem _ hx))

theorem isParamSeg_ne_empty {s : String} (h : isParamSeg s = true) : s ≠ "" := by
  intro he
  subst he
  exact absurd h (by decide)

theorem segMatch_self (l : List String) : ∃ bs, segMatch l l = some bs := by
  induction l with
  | nil => exact ⟨[], rfl⟩
  | cons s t ih =>
    obtain ⟨bs, hbs⟩ := ih
    by_cases hp : isParamSeg s = true
    · exact ⟨(paramName s, s) :: bs, by simp [segMatch, hp, isParamSeg_ne_empty hp, hbs]⟩
    · exact ⟨bs, by simp [segMatch, hp, hbs]⟩

theorem matchesPath_self (p : String) : ∃ bs, matchesPath p p = some bs :=
  segMatch_self (splitSegs p)

theorem matchPathList_skip (p : String) (ks1 ks2 : List String)
    (h : ∀ k ∈ ks1, matchesPath k p = none) :
    matchPathList p (ks1 ++ ks2) = matchPathList p ks2 := by
  induction ks1 with
  | nil => rfl
  | cons a t ih =>
    have ha := h a (List.mem_cons_self _ _)
    simp only [List.cons_append, matchPathList, ha]
    exact ih (fun k hk => h k (List.mem_cons_of_mem _ hk))

theorem matchPathList_head (p : String) (ks : List String)
    (bs : List (String × String)) (h : matchesPath p p = some bs) :
    matchPathList p (p :: ks) = some { path := p, params := bs } := by
  simp [matchPathList, h]



/-! Inversion lemmas: what an emission tells about the inputs. -/

/-- An emitting call of trackEvent emitted exactly the payload built by
mkTrackPayload, its event and category were truthy, and the consent or
opt-in guard held. -/
theorem trackEvent_emit_inv (env : AppEnv) (f : Nat → Bool) (st : MetaMetricsState)
    (config : TrackConfig) (p : TrackPayload)
    (h : trackEvent env f st config = Except.ok (some p)) :
    p = mkTrackPayload env f st config
    ∧ strTruthy config.event = true
    ∧ strTruthy config.category = true
    ∧ (st.participateInMetaMetrics || config.isOptIn.getD false) = true := by
  unfold trackEvent at h
  split at h
  · exact absurd h (by simp)
  · split at h
    · exact absurd h (by simp)
    · split at h
      · rename_i h1 h2 h3
        refine ⟨?_, ?_, ?_, h3⟩
        · injection h with h'
          injection h' with h''
          exact h''.symm
        · simpa using h1
        · simpa using h2
      · exact absurd h (by simp)

/-- A run of the page-tracking effect that emitted a page event found a
route match, and the event is determined by the match, the identifier
state and the location. -/
theorem onLocationChange_emit_inv (map : List (String × String)) (st : MetaMetricsState)
    (loc : LocationObj) (pe : PageEvent)
    (h : (onLocationChange map st loc).pageEvent = some pe) :
    ∃ m, matchPathList loc.pathname (map.map Prod.fst) = some m
      ∧ pe = { idTrait := if st.metaMetricsId.truthy then "userId" else "anonymousId"
               idValue := if st.metaMetricsId.isNullish then JSVal.str METAMETRICS_ANONYMOUS_ID
                          else st.metaMetricsId
               name := assocLookup m.path map
               url := m.path
               hash := loc.hash
               params := omitKeys m.params ["account", "address"] } := by
  unfold onLocationChange at h
  split at h
  · rename_i hactive
    cases hm : matchPathList loc.pathname (map.map Prod.fst) with
    | none =>
      rw [hm] at h
      simp at h
      split at h <;> simp at h
    | some m =>
      rw [hm] at h
      simp at h
      exact ⟨m, rfl, h.symm⟩
  · simp at h

/-! The claims. -/

/-- Claim C1: when the global consent flag is false and the isOptIn
flag of the configuration is false or absent, trackEvent never calls
the track method of the SDK, whatever the other configuration fields
and the rest of the global state are. -/
theorem trackEvent_no_consent_no_emission (env : AppEnv) (f : Nat → Bool)
    (st : MetaMetricsState) (config : TrackConfig)
    (hpart : st.participateInMetaMetrics = false)
    (hopt : config.isOptIn = none ∨ config.isOptIn = some false) :
    trackEmits (trackEvent env f st config) = false := by
  have hgetd : config.isOptIn.getD false = false := by
    cases hopt with
    | inl h => rw [h]; rfl
    | inr h => rw [h]; rfl
  unfold trackEvent
  split
  · rfl
  · split
    · rfl
    · rw [hpart, hgetd]
      simp [trackEmits]

/-- Claim C1 witness: a concrete call without consent emits nothing. -/
theorem trackEvent_no_consent_no_emission_witness :
    ({ stW with participateInMetaMetrics := false } : MetaMetricsState).participateInMetaMetrics = false
    ∧ (({ event := some "Clicked", category := some "Navigation" } : TrackConfig).isOptIn = none
       ∨ ({ event := some "Clicked", category := some "Navigation" } : TrackConfig).isOptIn = some false)
    ∧ trackEmits (trackEvent envW (fun _ => true) { stW with participateInMetaMetrics := false }
        { event := some "Clicked", category := some "Navigation" }) = false :=
  ⟨rfl, Or.inl rfl,
   trackEvent_no_consent_no_emission envW (fun _ => true) _ _ rfl (Or.inl rfl)⟩

/-- Claim C2: a configuration whose event or category is missing or
falsy makes trackEvent raise an error synchronously, and the track
method of the SDK is not called in that invocation. -/
theorem trackEvent_missing_field_error (env : AppEnv) (f : Nat → Bool)
    (st : MetaMetricsState) (config : TrackConfig)
    (h : strTruthy config.event = false ∨ strTruthy config.category = false) :
    (∃ msg, trackEvent env f st config = Except.error msg)
    ∧ trackEmits (trackEvent env f st config) = false := by
  unfold trackEvent
  cases he : strTruthy config.event with
  | false => simp [he, trackEmits]
  | true =>
    have hc : strTruthy config.category = false := by
      cases h with
      | inl h1 => rw [he] at h1; exact absurd h1 (by decide)
      | inr h2 => exact h2
    simp [he, hc, trackEmits]

/-- Claim C2 witness: a concrete call without an event name raises and
does not emit. -/
theorem trackEvent_missing_field_error_witness :
    strTruthy ({ category := some "Navigation" } : TrackConfig).event = false
    ∧ ((∃ msg, trackEvent envW (fun _ => true) stW { category := some "Navigation" } = Except.error msg)
       ∧ trackEmits (trackEvent envW (fun _ => true) stW { category := some "Navigation" }) = false) :=
  ⟨rfl, trackEvent_missing_field_error envW (fun _ => true) stW _ (Or.inl rfl)⟩

/-- Claim C3: whatever route parameters the matched path carries, the
params object of an emitted page event never contains an account key or
an address key. -/
theorem pageEvent_params_never_account_address (map : List (String × String))
    (st : MetaMetricsState) (loc : LocationObj) (pe : PageEvent)
    (h : (onLocationChange map st loc).pageEvent = some pe) :
    (∀ kv ∈ pe.params, kv.1 ≠ "account" ∧ kv.1 ≠ "address")
    ∧ jsGet pe.params "account" = none
    ∧ jsGet pe.params "address" = none := by
  obtain ⟨m, hm, hpe⟩ := onLocationChange_emit_inv map st loc pe h
  subst hpe
  refine ⟨?_, ?_, ?_⟩
  · intro kv hkv
    have h2 := (mem_omitKeys hkv).2
    constructor
    · intro he; exact h2 (by rw [he]; simp)
    · intro he; exact h2 (by rw [he]; simp)
  · exact jsGet_omitKeys_none _ _ _ (by simp)
  · exact jsGet_omitKeys_none _ _ _ (by simp)

/-- Claim C3 witness: a navigation binding an account route parameter
emits a page event whose params are free of account and address. -/
theorem pageEvent_params_never_account_address_witness :
    (onLocationChange mapW3 stW locW3).pageEvent = some peW3
    ∧ ((∀ kv ∈ peW3.params, kv.1 ≠ "account" ∧ kv.1 ≠ "address")
       ∧ jsGet peW3.params "account" = none ∧ jsGet peW3.params "address" = none) :=
  ⟨by decide, pageEvent_params_never_account_address mapW3 stW locW3 peW3 (by decide)⟩

/-- Claim C4: an emitted event whose name is prefixed by send or
confirm is tagged with the anonymous identifier under the anonymousId
trait whenever the external trackability predicate rejects the
incremented send count, regardless of the stored user identifier and of
the caller anonymization override. -/
theorem trackEvent_send_flow_anonymized (env : AppEnv) (f : Nat → Bool)
    (st : MetaMetricsState) (config : TrackConfig) (p : TrackPayload)
    (hsend : strStartsWith (config.event.getD "") "send" = true
           ∨ strStartsWith (config.event.getD "") "confirm" = true)
    (hcount : f (st.metaMetricsSendCount + 1) = false)
    (hemit : trackEvent env f st config = Except.ok (some p)) :
    p.idTrait = "anonymousId" ∧ p.idValue = JSVal.str METAMETRICS_ANONYMOUS_ID := by
  obtain ⟨hp, -, -, -⟩ := trackEvent_emit_inv env f st config p hemit
  subst hp
  have hsf : (strStartsWith (config.event.getD "") "send"
      || strStartsWith (config.event.getD "") "confirm") = true := by
    cases hsend with
    | inl h => simp [h]
    | inr h => simp [h]
  have hex : effectiveExclude f st config = true := by
    unfold effectiveExclude
    simp [hsf, hcount]
  simp [mkTrackPayload, hex]

/-- Claim C4 witness: a concrete send prefixed event at an untrackable
send count carries the anonymous identifier. -/
theorem trackEvent_send_flow_anonymized_witness :
    (strStartsWith (cfgW4.event.getD "") "send" = true
     ∨ strStartsWith (cfgW4.event.getD "") "confirm" = true)
    ∧ (fun _ => false) (stW.metaMetricsSendCount + 1) = false
    ∧ trackEvent envW (fun _ => false) stW cfgW4
        = Except.ok (some (mkTrackPayload envW (fun _ => false) stW cfgW4))
    ∧ ((mkTrackPayload envW (fun _ => false) stW cfgW4).idTrait = "anonymousId"
       ∧ (mkTrackPayload envW (fun _ => false) stW cfgW4).idValue = JSVal.str METAMETRICS_ANONYMOUS_ID) :=
  ⟨Or.inl (by decide), rfl, rfl,
   trackEvent_send_flow_anonymized envW (fun _ => false) stW cfgW4 _ (Or.inl (by decide)) rfl rfl⟩

/-- Claim C5: the revenue, currency and value keys a caller passes in
the configuration properties never appear in the properties object of
an emitted payload. -/
theorem trackEvent_strips_revenue_fields (env : AppEnv) (f : Nat → Bool)
    (st : MetaMetricsState) (config : TrackConfig) (p : TrackPayload)
    (hemit : trackEvent env f st config = Except.ok (some p)) :
    jsGet p.properties "revenue" = none
    ∧ jsGet p.properties "currency" = none
    ∧ jsGet p.properties "value" = none := by
  obtain ⟨hp, -, -, -⟩ := trackEvent_emit_inv env f st config p hemit
  subst hp
  have hprops : (mkTrackPayload env f st config).properties
      = (omitKeys config.properties ["revenue", "currency", "value"]
          ++ [("category", JSVal.str (config.category.getD ""))])
          ++ [("exclude_meta_metrics_id", JSVal.bool (effectiveExclude f st config))] := by
    simp [mkTrackPayload]
  refine ⟨?_, ?_, ?_⟩ <;>
  · rw [hprops, jsGet_snoc, if_neg (by decide), jsGet_snoc, if_neg (by decide)]
    exact jsGet_omitKeys_none _ _ _ (by simp)

/-- Claim C5 witness: a concrete call passing revenue, currency and
value in its properties emits a payload free of those keys. -/
theorem trackEvent_strips_revenue_fields_witness :
    trackEvent envW (fun _ => true) stW cfgW5
      = Except.ok (some (mkTrackPayload envW (fun _ => true) stW cfgW5))
    ∧ (jsGet (mkTrackPayload envW (fun _ => true) stW cfgW5).properties "revenue" = none
       ∧ jsGet (mkTrackPayload envW (fun _ => true) stW cfgW5).properties "currency" = none
       ∧ jsGet (mkTrackPayload envW (fun _ => true) stW cfgW5).properties "value" = none) :=
  ⟨rfl, trackEvent_strips_revenue_fields envW (fun _ => true) stW cfgW5 _ rfl⟩

/-- Claim C6 counterexample: the path of the single table entry is
navigated to, yet no page event is emitted, because the user has not
consented and the path is not under the initialize prefix; the claim as
stated promises an emission unconditionally. -/
theorem pageTrack_route_table_hit_counterexample :
    assocLookup "/unlock" [("/unlock", "Unlock Page")] = some "Unlock Page"
    ∧ (onLocationChange [("/unlock", "Unlock Page")]
         { network := "1", metaMetricsId := JSVal.str "0xabc",
           participateInMetaMetrics := false, metaMetricsSendCount := 0 }
         { pathname := "/unlock", hash := "" }).pageEvent = none := by
  decide

/-- Claim C6 as amended: for every navigation to a path present in the
route-name table, when page tracking is active (the path is under the
initialize prefix or the user has opted in) and no earlier table entry
matches the path, exactly one page event is emitted and its name is the
name the table maps that path to. -/
theorem pageTrack_route_table_hit (map l1 l2 : List (String × String)) (nm : String)
    (st : MetaMetricsState) (loc : LocationObj)
    (hactive : strStartsWith loc.pathname "/initialize" = true
             ∨ st.participateInMetaMetrics = true)
    (hsplit : map = l1 ++ (loc.pathname, nm) :: l2)
    (hnoshadow : ∀ kv ∈ l1, matchesPath kv.1 loc.pathname = none) :
    ∃ pe, onLocationChange map st loc = { pageEvent := some pe, diagnostic := none }
      ∧ pe.name = some nm := by
  obtain ⟨bs, hbs⟩ := matchesPath_self loc.pathname
  have hkeys : map.map Prod.fst = (l1.map Prod.fst) ++ (loc.pathname :: l2.map Prod.fst) := by
    subst hsplit; simp
  have hskip : matchPathList loc.pathname (map.map Prod.fst)
      = some { path := loc.pathname, params := bs } := by
    rw [hkeys, matchPathList_skip, matchPathList_head _ _ _ hbs]
    intro k hk
    obtain ⟨kv, hkv, rfl⟩ := List.mem_map.mp hk
    exact hnoshadow kv hkv
  have hne : ∀ kv ∈ l1, kv.1 ≠ loc.pathname := by
    intro kv hkv he
    have hzero := hnoshadow kv hkv
    rw [he, hbs] at hzero
    exact absurd hzero (by simp)
  have hlook : assocLookup loc.pathname map = some nm := by
    rw [hsplit, assocLookup_append_of_not_mem _ _ _ hne]
    simp [assocLookup]
  have hcond : (strStartsWith loc.pathname "/initialize" || st.participateInMetaMetrics) = true := by
    cases hactive with
    | inl h => simp [h]
    | inr h => simp [h]
  refine ⟨{ idTrait := if st.metaMetricsId.truthy then "userId" else "anonymousId"
            idValue := if st.metaMetricsId.isNullish then JSVal.str METAMETRICS_ANONYMOUS_ID
                       else st.metaMetricsId
            name := some nm
            url := loc.pathname
            hash := loc.hash
            params := omitKeys bs ["account", "address"] }, ?_, rfl⟩
  unfold onLocationChange
  rw [hcond]
  simp [hskip, hlook]

/-- Claim C6 witness: a consenting navigation to the second entry of a
two-entry table emits one page event named by that entry. -/
theorem pageTrack_route_table_hit_witness :
    (strStartsWith locW6.pathname "/initialize" = true ∨ stW.participateInMetaMetrics = true)
    ∧ mapW6 = [("/settings", "Settings Page")] ++ (locW6.pathname, "Unlock Page") :: []
    ∧ (∀ kv ∈ [("/settings", "Settings Page")], matchesPath kv.1 locW6.pathname = none)
    ∧ (∃ pe, onLocationChange mapW6 stW locW6 = { pageEvent := some pe, diagnostic := none }
         ∧ pe.name = some "Unlock Page") :=
  ⟨Or.inr rfl, rfl, by decide,
   pageTrack_route_table_hit mapW6 [("/settings", "Settings Page")] [] "Unlock Page" stW locW6
     (Or.inr rfl) rfl (by decide)⟩

/-- Claim C7 counterexample: with the stored identifier equal to the
empty string, the emitted page event carries the anonymousId trait with
the empty string as its value, which is neither the user id under the
userId trait nor the anonymous placeholder identifier. -/
theorem pageEvent_identity_resolution_counterexample :
    (onLocationChange [("/home", "Home")]
       { network := "1", metaMetricsId := JSVal.str "",
         participateInMetaMetrics := true, metaMetricsSendCount := 0 }
       { pathname := "/home", hash := "" }).pageEvent
      = some { idTrait := "anonymousId", idValue := JSVal.str "", name := some "Home",
               url := "/home", hash := "", params := [] }
    ∧ JSVal.str "" ≠ JSVal.str METAMETRICS_ANONYMOUS_ID
    ∧ ("anonymousId" : String) ≠ "userId" := by
  decide

/-- Claim C7 as amended: an emitted page event carries the userId trait
with the stored identifier when that identifier is truthy (a nonempty
string); otherwise it carries the anonymousId trait, whose value is the
anonymous placeholder when the identifier is null or absent, and the
stored falsy value itself (for instance the empty string) when the
identifier is defined but falsy. -/
theorem pageEvent_identity_resolution (map : List (String × String))
    (st : MetaMetricsState) (loc : LocationObj) (pe : PageEvent)
    (h : (onLocationChange map st loc).pageEvent = some pe) :
    (st.metaMetricsId.truthy = true → pe.idTrait = "userId" ∧ pe.idValue = st.metaMetricsId)
    ∧ (st.metaMetricsId.truthy = false → pe.idTrait = "anonymousId")
    ∧ (st.metaMetricsId.isNullish = true → pe.idValue = JSVal.str METAMETRICS_ANONYMOUS_ID)
    ∧ (st.metaMetricsId.isNullish = false → pe.idValue = st.metaMetricsId) := by
  obtain ⟨m, hm, hpe⟩ := onLocationChange_emit_inv map st loc pe h
  subst hpe
  refine ⟨?_, ?_, ?_, ?_⟩
  · intro ht
    have hnn : st.metaMetricsId.isNullish = false := by
      cases hv : st.metaMetricsId <;> simp_all [JSVal.truthy, JSVal.isNullish]
    simp [ht, hnn]
  · intro ht; simp [ht]
  · intro hn; simp [hn]
  · intro hn; simp [hn]

/-- Claim C7 witness: with an absent identifier the emitted page event
carries the anonymous placeholder under the anonymousId trait. -/
theorem pageEvent_identity_resolution_witness :
    (onLocationChange mapW7 stW7 locW7).pageEvent = some peW7
    ∧ ((stW7.metaMetricsId.truthy = true → peW7.idTrait = "userId" ∧ peW7.idValue = stW7.metaMetricsId)
       ∧ (stW7.metaMetricsId.truthy = false → peW7.idTrait = "anonymousId")
       ∧ (stW7.metaMetricsId.isNullish = true → peW7.idValue = JSVal.str METAMETRICS_ANONYMOUS_ID)
       ∧ (stW7.metaMetricsId.isNullish = false → peW7.idValue = stW7.metaMetricsId)) :=
  ⟨by decide, pageEvent_identity_resolution mapW7 stW7 locW7 peW7 (by decide)⟩

/-- Claim C8: when page tracking is active and the path matches no
table entry, a navigation away from the special-cased
confirm-transaction route reports the missed tracking diagnostic and
emits no page event, while a navigation to the special-cased route
produces neither; the embedding of the effect is a total function, so
no error is raised on this path. -/
theorem pageTrack_miss_diagnostic (map : List (String × String))
    (st : MetaMetricsState) (loc : LocationObj)
    (hactive : strStartsWith loc.pathname "/initialize" = true
             ∨ st.participateInMetaMetrics = true)
    (hnomatch : matchPathList loc.pathname (map.map Prod.fst) = none) :
    (loc.pathname ≠ "/confirm-transaction" →
       onLocationChange map st loc
         = { pageEvent := none
             diagnostic := some (loc.pathname ++ " would have issued a page track event to segment, but no route match was found") })
    ∧ (loc.pathname = "/confirm-transaction" →
       onLocationChange map st loc = { pageEvent := none, diagnostic := none }) := by
  have hcond : (strStartsWith loc.pathname "/initialize" || st.participateInMetaMetrics) = true := by
    cases hactive with
    | inl h => simp [h]
    | inr h => simp [h]
  constructor
  · intro hne
    simp [onLocationChange, hcond, hnomatch, hne]
  · intro he
    rw [he] at hcond hnomatch
    simp [onLocationChange, he, hcond, hnomatch]

/-- Claim C8 witness: a consenting navigation to an unknown path
reports the diagnostic and emits nothing. -/
theorem pageTrack_miss_diagnostic_witness :
    (strStartsWith locW8.pathname "/initialize" = true ∨ stW.participateInMetaMetrics = true)
    ∧ matchPathList locW8.pathname (mapW8.map Prod.fst) = none
    ∧ ((locW8.pathname ≠ "/confirm-transaction" →
          onLocationChange mapW8 stW locW8
            = { pageEvent := none
                diagnostic := some (locW8.pathname ++ " would have issued a page track event to segment, but no route match was found") })
       ∧ (locW8.pathname = "/confirm-transaction" →
          onLocationChange mapW8 stW locW8 = { pageEvent := none, diagnostic := none })) :=
  ⟨Or.inr rfl, by decide,
   pageTrack_miss_diagnostic mapW8 stW locW8 (Or.inr rfl) (by decide)⟩

/-- Claim C9: an emitting call of trackEvent without the caller
anonymization override and without the forced send-flow anonymization
carries the userId trait with the stored identifier value as it is,
even when that identifier is null or undefined; it never falls back to
the anonymous identifier in that case. -/
theorem trackEvent_userId_when_not_anonymized (env : AppEnv) (f : Nat → Bool)
    (st : MetaMetricsState) (config : TrackConfig) (p : TrackPayload)
    (hover : config.excludeMetaMetricsId = none ∨ config.excludeMetaMetricsId = some false)
    (hanon : (strStartsWith (config.event.getD "") "send" = true
            ∨ strStartsWith (config.event.getD "") "confirm" = true)
            → f (st.metaMetricsSendCount + 1) = true)
    (hemit : trackEvent env f st config = Except.ok (some p)) :
    p.idTrait = "userId" ∧ p.idValue = st.metaMetricsId := by
  obtain ⟨hp, -, -, -⟩ := trackEvent_emit_inv env f st config p hemit
  subst hp
  have hgetd : config.excludeMetaMetricsId.getD false = false := by
    cases hover with
    | inl h => rw [h]; rfl
    | inr h => rw [h]; rfl
  have hex : effectiveExclude f st config = false := by
    unfold effectiveExclude
    cases hsf : (strStartsWith (config.event.getD "") "send"
        || strStartsWith (config.event.getD "") "confirm") with
    | false => simp [hsf, hgetd]
    | true =>
      have hor : strStartsWith (config.event.getD "") "send" = true
          ∨ strStartsWith (config.event.getD "") "confirm" = true := by
        simpa using hsf
      simp [hsf, hanon hor, hgetd]
  simp [mkTrackPayload, hex]

/-- Claim C9 witness: an opt-in workflow emission with a null stored
identifier still carries the userId trait with the null value. -/
theorem trackEvent_userId_when_not_anonymized_witness :
    (cfgW9.excludeMetaMetricsId = none ∨ cfgW9.excludeMetaMetricsId = some false)
    ∧ ((strStartsWith (cfgW9.event.getD "") "send" = true
        ∨ strStartsWith (cfgW9.event.getD "") "confirm" = true)
       → (fun _ => true) (stW9.metaMetricsSendCount + 1) = true)
    ∧ trackEvent envW (fun _ => true) stW9 cfgW9
        = Except.ok (some (mkTrackPayload envW (fun _ => true) stW9 cfgW9))
    ∧ ((mkTrackPayload envW (fun _ => true) stW9 cfgW9).idTrait = "userId"
       ∧ (mkTrackPayload envW (fun _ => true) stW9 cfgW9).idValue = stW9.metaMetricsId) :=
  ⟨Or.inl rfl, fun _ => rfl, rfl,
   trackEvent_userId_when_not_anonymized envW (fun _ => true) stW9 cfgW9 _
     (Or.inl rfl) (fun _ => rfl) rfl⟩

/-- Claim C10: the properties object of every emitted payload contains
a category entry equal to the configured category and an
exclude_meta_metrics_id boolean entry equal to the effective
anonymization flag, both overriding any same-named entries the caller
supplied in the configuration properties; the identity trait agrees
with that flag. -/
theorem trackEvent_properties_category_exclude (env : AppEnv) (f : Nat → Bool)
    (st : MetaMetricsState) (config : TrackConfig) (p : TrackPayload)
    (hemit : trackEvent env f st config = Except.ok (some p)) :
    jsGet p.properties "category" = some (JSVal.str (config.category.getD ""))
    ∧ jsGet p.properties "exclude_meta_metrics_id"
        = some (JSVal.bool (effectiveExclude f st config))
    ∧ p.idTrait = (if effectiveExclude f st config then "anonymousId" else "userId") := by
  obtain ⟨hp, -, -, -⟩ := trackEvent_emit_inv env f st config p hemit
  subst hp
  have hprops : (mkTrackPayload env f st config).properties
      = (omitKeys config.properties ["revenue", "currency", "value"]
          ++ [("category", JSVal.str (config.category.getD ""))])
          ++ [("exclude_meta_metrics_id", JSVal.bool (effectiveExclude f st config))] := by
    simp [mkTrackPayload]
  refine ⟨?_, ?_, ?_⟩
  · rw [hprops, jsGet_snoc, if_neg (by decide), jsGet_snoc, if_pos rfl]
  · rw [hprops, jsGet_snoc, if_pos rfl]
  · simp [mkTrackPayload]

/-- Claim C10 witness: a caller presetting category and
exclude_meta_metrics_id in its properties still sees them overridden in
the emitted payload. -/
theorem trackEvent_properties_category_exclude_witness :
    trackEvent envW (fun _ => true) stW cfgW10
      = Except.ok (some (mkTrackPayload envW (fun _ => true) stW cfgW10))
    ∧ (jsGet (mkTrackPayload envW (fun _ => true) stW cfgW10).properties "category"
         = some (JSVal.str (cfgW10.category.getD ""))
       ∧ jsGet (mkTrackPayload envW (fun _ => true) stW cfgW10).properties "exclude_meta_metrics_id"
         = some (JSVal.bool (effectiveExclude (fun _ => true) stW cfgW10))
       ∧ (mkTrackPayload envW (fun _ => true) stW cfgW10).idTrait
         = (if effectiveExclude (fun _ => true) stW cfgW10 then "anonymousId" else "userId")) :=
  ⟨rfl, trackEvent_properties_category_exclude envW (fun _ => true) stW cfgW10 _ rfl⟩

end Metametrics
